import Mathlib

/-!
Verification of the Talowiz PDF question-answering utility (`app.py`).

The program's text is modelled as `List Char` (`Str`).  Python's
`str.strip()` becomes `strip`, `"sep".join(xs)` becomes `joinSep sep xs`,
and the `range`-driven slicing loop of `chunk_text` is translated with the
closed form of `range(0, n, size)` for a positive step: the iteration
indices are `0, size, 2*size, ...`, i.e. `k * size` for
`k < ceil(n / size) = (n + size - 1) / size`.

The remote Gemini model is an opaque external collaborator; it is modelled
as an oracle `gen : Nat → Str → Str` mapping the index of the call (calls
are issued strictly sequentially) and the prompt to the value of
`result.text or ""` for that call.  File-system and environment facts
(path existence, per-page extracted text, the API key) are inputs to the
embedded functions.
-/

/-- Program text: Python `str` modelled as a list of characters. -/
abbrev Str := List Char

/-- Convert a Lean string literal to `Str`. -/
def str (s : String) : Str := s.toList

/-- Decimal rendering of a natural number, as used by Python f-strings. -/
def natStr (n : Nat) : Str := str (toString n)

/-- Python whitespace for `str.strip()` (ASCII portion). -/
def isPySpace (c : Char) : Bool :=
  c = ' ' || c = '\t' || c = '\n' || c = '\x0b' || c = '\x0c' || c = '\r'

/-- Python `s.strip()`: drop leading and trailing whitespace. -/
def strip (s : Str) : Str :=
  ((s.dropWhile isPySpace).reverse.dropWhile isPySpace).reverse

/-- Python `sep.join(xs)`. -/
def joinSep (sep : Str) : List Str → Str
  | [] => []
  | [x] => x
  | x :: y :: ys => x ++ sep ++ joinSep sep (y :: ys)

/-- `MAX_CONTEXT_CHARS = 120_000` from `app.py`. -/
def MAX_CONTEXT_CHARS : Nat := 120000

/-- `chunk_text(text, size)` from `app.py`:
`for i in range(0, len(text), size): yield text[i : i + size]`.
For a positive step, `range(0, n, size)` enumerates `k * size` for
`k < (n + size - 1) / size`, and `text[i : i + size]` is
`(text.drop i).take size`.  (Python raises `ValueError` for step 0;
every property below assumes `size > 0`.) -/
def chunk_text (text : Str) (size : Nat) : List Str :=
  (List.range ((text.length + size - 1) / size)).map
    (fun k => (text.drop (k * size)).take size)

/-- `chunk_text` on the empty text yields no chunks. -/
theorem chunk_text_nil (size : Nat) : chunk_text [] size = [] := by
  unfold chunk_text
  have h0 : (List.length ([] : Str) + size - 1) / size = 0 := by
    rcases Nat.eq_zero_or_pos size with hz | hp
    · subst hz; rfl
    · exact Nat.div_eq_of_lt (by simp only [List.length_nil]; omega)
  rw [h0]
  rfl

/-- Unfolding lemma: for a positive size and non-empty text, the first chunk
is `text.take size` and the remaining chunks are those of `text.drop size`. -/
theorem chunk_text_cons (size : Nat) (hs : 0 < size) (t : Str) (ht : t ≠ []) :
    chunk_text t size = t.take size :: chunk_text (t.drop size) size := by
  have hn : 0 < t.length := List.length_pos.mpr ht
  have hm : (t.length + size - 1) / size =
      ((t.length - size) + size - 1) / size + 1 := by
    rcases le_or_lt size t.length with h | h
    · have e1 : t.length + size - 1 = (t.length - 1) + size := by omega
      have e2 : t.length - size + size - 1 = t.length - 1 := by omega
      rw [e1, e2, Nat.add_div_right _ hs]
    · have e1 : t.length + size - 1 = (t.length - 1) + size := by omega
      have e2 : t.length - size + size - 1 = size - 1 := by omega
      rw [e1, e2, Nat.add_div_right _ hs,
        Nat.div_eq_of_lt (by omega), Nat.div_eq_of_lt (by omega)]
  unfold chunk_text
  rw [List.length_drop, hm, List.range_succ_eq_map, List.map_cons, List.map_map]
  congr 1
  · simp
  · refine List.map_congr_left fun k _hk => ?_
    simp only [Function.comp_apply, List.drop_drop]
    rw [Nat.succ_mul, Nat.add_comm (k * size) size]

/-- Concatenating the chunks reproduces the text (any positive size). -/
theorem chunk_text_flatten (size : Nat) (hs : 0 < size) :
    ∀ t : Str, (chunk_text t size).flatten = t
  | t => by
    by_cases ht : t = []
    · subst ht; rw [chunk_text_nil]; rfl
    · rw [chunk_text_cons size hs t ht, List.flatten_cons,
        chunk_text_flatten size hs (t.drop size), List.take_append_drop]
termination_by t => t.length
decreasing_by
  have hn : 0 < t.length := List.length_pos.mpr ht
  show (t.drop size).length < t.length
  simp only [List.length_drop]
  omega

/-- No chunk produced from a positive size is empty. -/
theorem chunk_text_ne_nil (size : Nat) (hs : 0 < size) :
    ∀ t : Str, ∀ c ∈ chunk_text t size, c ≠ []
  | t => by
    by_cases ht : t = []
    · subst ht; rw [chunk_text_nil]; intro c hc; cases hc
    · rw [chunk_text_cons size hs t ht]
      intro c hc
      rcases List.mem_cons.mp hc with h | h
      · subst h
        intro h0
        rcases List.take_eq_nil_iff.mp h0 with h1 | h1
        · omega
        · exact ht h1
      · exact chunk_text_ne_nil size hs (t.drop size) c h
termination_by t => t.length
decreasing_by
  have hn : 0 < t.length := List.length_pos.mpr ht
  show (t.drop size).length < t.length
  simp only [List.length_drop]
  omega

/-- A non-empty text no longer than the size gives exactly one chunk. -/
theorem chunk_text_short (size : Nat) (t : Str) (hs : 0 < size)
    (ht : t ≠ []) (hle : t.length ≤ size) : chunk_text t size = [t] := by
  rw [chunk_text_cons size hs t ht, List.take_of_length_le hle,
    List.drop_eq_nil_of_le hle, chunk_text_nil]

/-- The fixed instruction prefix of `build_prompt` in `app.py`. -/
def instructionText : Str :=
  str "You are a careful assistant. Use ONLY the provided PDF context to answer. If the answer is not present, explicitly say: \x27I could not find that in the PDF.\x27\n\n"

/-- `build_prompt(context, question)` from `app.py`. -/
def build_prompt (context question : Str) : Str :=
  instructionText ++ str "PDF CONTEXT:\n" ++ context
    ++ str "\n\nQUESTION: " ++ question ++ str "\nANSWER:"

/-- C1: for every text `T` and every `maxSize > 0`, concatenating the chunks
produced by `chunk_text T maxSize` in their emitted order yields exactly `T`
(contiguous, in order, no overlap, no dropped characters). -/
theorem chunk_text_concat (t : Str) (maxSize : Nat) (h : 0 < maxSize) :
    (chunk_text t maxSize).flatten = t :=
  chunk_text_flatten maxSize h t

theorem chunk_text_concat_witness :
    0 < 4 ∧ (chunk_text (str "abcdefghij") 4).flatten = str "abcdefghij" :=
  ⟨by decide, chunk_text_concat (str "abcdefghij") 4 (by decide)⟩

/-- C6 counterexample: the empty text has length at most `1`, yet
`chunk_text` yields zero chunks for it, not one chunk equal to the text. -/
theorem chunk_text_one_chunk_counterexample :
    0 < 1 ∧ ([] : Str).length ≤ 1 ∧ chunk_text [] 1 ≠ [([] : Str)] := by
  decide

/-- C6 (amended): for every non-empty text `T` with length at most
`maxSize` (with `maxSize > 0`), `chunk_text T maxSize` yields exactly one
chunk, and that chunk equals `T`; the empty text yields zero chunks. -/
theorem chunk_text_one_chunk (t : Str) (maxSize : Nat) (h : 0 < maxSize)
    (ht : t ≠ []) (hle : t.length ≤ maxSize) :
    chunk_text t maxSize = [t] :=
  chunk_text_short maxSize t h ht hle

theorem chunk_text_one_chunk_witness :
    (0 < 10 ∧ str "abcdef" ≠ [] ∧ (str "abcdef").length ≤ 10) ∧
      chunk_text (str "abcdef") 10 = [str "abcdef"] :=
  ⟨by decide, chunk_text_one_chunk (str "abcdef") 10 (by decide) (by decide)
    (by decide)⟩

/-- C7: for every `maxSize > 0`, `chunk_text` never yields an empty chunk,
and the empty input text yields zero chunks. -/
theorem chunk_text_no_empty_chunk (maxSize : Nat) (h : 0 < maxSize) (t : Str) :
    (∀ c ∈ chunk_text t maxSize, c ≠ []) ∧ chunk_text [] maxSize = [] :=
  ⟨chunk_text_ne_nil maxSize h t, chunk_text_nil maxSize⟩

theorem chunk_text_no_empty_chunk_witness :
    0 < 4 ∧ ((∀ c ∈ chunk_text (str "abcdefghij") 4, c ≠ []) ∧
      chunk_text [] 4 = []) :=
  ⟨by decide, chunk_text_no_empty_chunk 4 (by decide) (str "abcdefghij")⟩

/-- C8: `build_prompt context question` is a pure function of its inputs and
contains `context`, `question` and the fixed instruction text verbatim as
substrings. -/
theorem build_prompt_contains_verbatim (context question : Str) :
    (∃ u v, build_prompt context question = u ++ context ++ v) ∧
    (∃ u v, build_prompt context question = u ++ question ++ v) ∧
    (∃ v, build_prompt context question = instructionText ++ v) := by
  refine ⟨⟨instructionText ++ str "PDF CONTEXT:\n",
      str "\n\nQUESTION: " ++ question ++ str "\nANSWER:", ?_⟩,
    ⟨instructionText ++ str "PDF CONTEXT:\n" ++ context ++ str "\n\nQUESTION: ",
      str "\nANSWER:", ?_⟩,
    ⟨str "PDF CONTEXT:\n" ++ context ++ str "\n\nQUESTION: " ++ question
      ++ str "\nANSWER:", ?_⟩⟩ <;>
  simp [build_prompt, List.append_assoc]

/-- Exceptions raised by `app.py`, carrying Python's `str(exc)`. -/
inductive AppError where
  | fileNotFound (msg : Str)
  | valueError (msg : Str)
  | environmentError (msg : Str)
  | runtimeError (msg : Str)
deriving DecidableEq

/-- Python's `str(exc)` — the message the exception was raised with. -/
def errMsg : AppError → Str
  | .fileNotFound m => m
  | .valueError m => m
  | .environmentError m => m
  | .runtimeError m => m

/-- Message of the `EnvironmentError` raised when the API key is absent. -/
def keyMissingMsg : Str :=
  str "GEMINI_API_KEY is not set. Configure it in env or .env."

/-- Message of the `RuntimeError` raised when no response was collected. -/
def emptyResponseMsg : Str := str "Gemini returned an empty response."

/-- Message of the `ValueError` raised when the PDF yields no text. -/
def emptyPdfMsg : Str := str "Could not extract any text from the PDF."

/-- The per-chunk loop of `ask_gemini`: one remote call per chunk (the
sequential call index is threaded through), keeping each trimmed non-empty
response.  Python's `if text:` is the non-emptiness test. -/
def collectResponses (gen : Nat → Str → Str) (question : Str) :
    Nat → List Str → List Str
  | _, [] => []
  | i, c :: cs =>
    let text := strip (gen i (build_prompt c question))
    if text = [] then collectResponses gen question (i + 1) cs
    else text :: collectResponses gen question (i + 1) cs

/-- Labels of the merge prompt:
one entry per response, reading `Partial answer {i+1}:\n{r}` where `i` is
the `enumerate` index continued from the first argument. -/
def labelAnswers : Nat → List Str → List Str
  | _, [] => []
  | i, r :: rs =>
    (str "Partial answer " ++ natStr (i + 1) ++ str ":\n" ++ r)
      :: labelAnswers (i + 1) rs

/-- The fixed header of the merge prompt of `ask_gemini`. -/
def mergeHeader : Str :=
  str "You are given multiple partial answers extracted from different PDF chunks. Merge them into one concise final answer. If conflicting, prefer overlap across chunks.\n\n"

/-- The `summary_prompt` of `ask_gemini`. -/
def merge_prompt (responses : List Str) : Str :=
  mergeHeader ++ joinSep (str "\n\n") (labelAnswers 0 responses)

/-- Outcome of `ask_gemini`: the returned value or raised error, together
with the prompts of the remote calls issued, in order. -/
structure AskTrace where
  result : Except AppError Str
  calls : List Str

/-- `ask_gemini(pdf_text, question, model_name)` from `app.py`.  The remote
model is the oracle `gen` (call index, prompt ↦ `result.text or ""`); the
`GEMINI_API_KEY` environment variable is `apiKey` (`none` if unset), and
Python's `if not api_key:` is the test `apiKey.getD [] = []`. -/
def ask_gemini (gen : Nat → Str → Str) (apiKey : Option Str)
    (pdf_text question : Str) : AskTrace :=
  if apiKey.getD [] = [] then
    { result := .error (.environmentError keyMissingMsg), calls := [] }
  else
    let chunks := chunk_text pdf_text MAX_CONTEXT_CHARS
    let responses := collectResponses gen question 0 chunks
    if responses = [] then
      { result := .error (.runtimeError emptyResponseMsg),
        calls := chunks.map (fun c => build_prompt c question) }
    else if responses.length = 1 then
      { result := .ok (responses.headD []),
        calls := chunks.map (fun c => build_prompt c question) }
    else
      let summary_prompt := merge_prompt responses
      let final := strip (gen chunks.length summary_prompt)
      { result := .ok (if final = [] then joinSep (str "\n\n") responses
          else final),
        calls := chunks.map (fun c => build_prompt c question)
          ++ [summary_prompt] }

/-- Every retained response of the per-chunk loop is non-empty. -/
theorem collectResponses_ne_nil (gen : Nat → Str → Str) (question : Str) :
    ∀ (i : Nat) (cs : List Str), ∀ r ∈ collectResponses gen question i cs,
      r ≠ []
  | _, [], r, hr => absurd hr (List.not_mem_nil r)
  | i, c :: cs, r, hr => by
    simp only [collectResponses] at hr
    by_cases he : strip (gen i (build_prompt c question)) = []
    · rw [if_pos he] at hr
      exact collectResponses_ne_nil gen question (i + 1) cs r hr
    · rw [if_neg he] at hr
      rcases List.mem_cons.mp hr with h | h
      · subst h; exact he
      · exact collectResponses_ne_nil gen question (i + 1) cs r h

/-- Behaviour of `ask_gemini` when the credential is absent. -/
theorem ask_gemini_no_key (gen : Nat → Str → Str) (apiKey : Option Str)
    (pdf_text question : Str) (hk : apiKey.getD [] = []) :
    ask_gemini gen apiKey pdf_text question
      = { result := .error (.environmentError keyMissingMsg), calls := [] } := by
  unfold ask_gemini
  rw [if_pos hk]

/-- Behaviour of `ask_gemini` when no response is collected. -/
theorem ask_gemini_no_responses (gen : Nat → Str → Str) (apiKey : Option Str)
    (pdf_text question : Str) (hk : apiKey.getD [] ≠ [])
    (h : collectResponses gen question 0
      (chunk_text pdf_text MAX_CONTEXT_CHARS) = []) :
    ask_gemini gen apiKey pdf_text question
      = { result := .error (.runtimeError emptyResponseMsg),
          calls := (chunk_text pdf_text MAX_CONTEXT_CHARS).map
            (fun c => build_prompt c question) } := by
  unfold ask_gemini
  rw [if_neg hk]
  simp only [h]
  rw [if_pos trivial]

/-- Behaviour of `ask_gemini` when exactly one response is collected. -/
theorem ask_gemini_one_response (gen : Nat → Str → Str) (apiKey : Option Str)
    (pdf_text question a : Str) (hk : apiKey.getD [] ≠ [])
    (h : collectResponses gen question 0
      (chunk_text pdf_text MAX_CONTEXT_CHARS) = [a]) :
    ask_gemini gen apiKey pdf_text question
      = { result := .ok a,
          calls := (chunk_text pdf_text MAX_CONTEXT_CHARS).map
            (fun c => build_prompt c question) } := by
  unfold ask_gemini
  rw [if_neg hk]
  simp only [h]
  rw [if_neg (by simp), if_pos (by simp)]
  rfl

/-- Behaviour of `ask_gemini` when at least two responses are collected. -/
theorem ask_gemini_many_responses (gen : Nat → Str → Str) (apiKey : Option Str)
    (pdf_text question r r2 : Str) (rs : List Str) (hk : apiKey.getD [] ≠ [])
    (h : collectResponses gen question 0
      (chunk_text pdf_text MAX_CONTEXT_CHARS) = r :: r2 :: rs) :
    ask_gemini gen apiKey pdf_text question
      = { result := .ok
            (if strip (gen (chunk_text pdf_text MAX_CONTEXT_CHARS).length
                  (merge_prompt (r :: r2 :: rs))) = []
             then joinSep (str "\n\n") (r :: r2 :: rs)
             else strip (gen (chunk_text pdf_text MAX_CONTEXT_CHARS).length
                  (merge_prompt (r :: r2 :: rs)))),
          calls := (chunk_text pdf_text MAX_CONTEXT_CHARS).map
              (fun c => build_prompt c question)
            ++ [merge_prompt (r :: r2 :: rs)] } := by
  unfold ask_gemini
  rw [if_neg hk]
  simp only [h]
  rw [if_neg (by simp), if_neg (by simp)]

/-- Equation of `joinSep` for two or more elements. -/
theorem joinSep_cons₂ (sep a b : Str) (t : List Str) :
    joinSep sep (a :: b :: t) = a ++ sep ++ joinSep sep (b :: t) := rfl

/-- Each member of a list is a contiguous substring of its `joinSep`. -/
theorem joinSep_decomp (sep : Str) :
    ∀ (l : List Str) (x : Str), x ∈ l → ∃ u v, joinSep sep l = u ++ x ++ v
  | [], x, hx => absurd hx (List.not_mem_nil x)
  | [a], x, hx => by
    have hxa := List.mem_singleton.mp hx
    subst hxa
    exact ⟨[], [], by simp [joinSep]⟩
  | a :: b :: t, x, hx => by
    rcases List.mem_cons.mp hx with h | h
    · subst h
      exact ⟨[], sep ++ joinSep sep (b :: t), by simp [joinSep_cons₂]⟩
    · obtain ⟨u, v, huv⟩ := joinSep_decomp sep (b :: t) x h
      exact ⟨a ++ sep ++ u, v, by simp [joinSep_cons₂, huv]⟩

/-- The merge labels: entry `i` (0-based, counted from the start index)
carries the 1-based heading and the response at position `i`. -/
theorem labelAnswers_mem :
    ∀ (rs : List Str) (k i : Nat) (hi : i < rs.length),
      (str "Partial answer " ++ natStr (k + i + 1) ++ str ":\n"
        ++ rs.get ⟨i, hi⟩) ∈ labelAnswers k rs
  | [], _, _, hi => absurd hi (Nat.not_lt_zero _)
  | r :: rs, k, 0, _ => by
    simp [labelAnswers]
  | r :: rs, k, i + 1, hi => by
    have hrec := labelAnswers_mem rs (k + 1) i (Nat.lt_of_succ_lt_succ hi)
    have e : k + 1 + i + 1 = k + (i + 1) + 1 := by omega
    rw [e] at hrec
    exact List.mem_cons_of_mem _ hrec

/-- C4: for every input text, question and oracle, if the GEMINI_API_KEY
credential is unset or empty, `ask_gemini` fails with the
missing-credential `EnvironmentError` and issues no remote call at all. -/
theorem ask_gemini_missing_credential (gen : Nat → Str → Str)
    (apiKey : Option Str) (pdf_text question : Str)
    (hk : apiKey.getD [] = []) :
    (ask_gemini gen apiKey pdf_text question).result
        = .error (.environmentError keyMissingMsg) ∧
    (ask_gemini gen apiKey pdf_text question).calls = [] := by
  rw [ask_gemini_no_key gen apiKey pdf_text question hk]
  exact ⟨rfl, rfl⟩

theorem ask_gemini_missing_credential_witness :
    ((none : Option Str).getD [] = []) ∧
    ((ask_gemini (fun _ _ => []) none [] []).result
        = .error (.environmentError keyMissingMsg) ∧
     (ask_gemini (fun _ _ => []) none [] []).calls = []) :=
  ⟨rfl, ask_gemini_missing_credential (fun _ _ => []) none [] [] rfl⟩

/-- C2: if the per-chunk calls collect exactly one non-empty trimmed
partial answer, `ask_gemini` returns it verbatim as the final answer, and
the issued remote calls are exactly the per-chunk prompts — no merge
call. -/
theorem ask_gemini_single_answer (gen : Nat → Str → Str)
    (apiKey : Option Str) (pdf_text question a : Str)
    (hk : apiKey.getD [] ≠ [])
    (h : collectResponses gen question 0
      (chunk_text pdf_text MAX_CONTEXT_CHARS) = [a]) :
    (ask_gemini gen apiKey pdf_text question).result = .ok a ∧
    (ask_gemini gen apiKey pdf_text question).calls
      = (chunk_text pdf_text MAX_CONTEXT_CHARS).map
          (fun c => build_prompt c question) := by
  rw [ask_gemini_one_response gen apiKey pdf_text question a hk h]
  exact ⟨rfl, rfl⟩

theorem ask_gemini_single_answer_witness :
    ((some (str "key") : Option Str).getD [] ≠ [] ∧
     collectResponses (fun _ _ => str "The answer") (str "q") 0
       (chunk_text (str "hello") MAX_CONTEXT_CHARS) = [str "The answer"]) ∧
    ((ask_gemini (fun _ _ => str "The answer") (some (str "key"))
        (str "hello") (str "q")).result = .ok (str "The answer") ∧
     (ask_gemini (fun _ _ => str "The answer") (some (str "key"))
        (str "hello") (str "q")).calls
       = (chunk_text (str "hello") MAX_CONTEXT_CHARS).map
           (fun c => build_prompt c (str "q"))) :=
  ⟨⟨by decide, by decide⟩,
   ask_gemini_single_answer (fun _ _ => str "The answer") (some (str "key"))
     (str "hello") (str "q") (str "The answer") (by decide) (by decide)⟩

/-- C10: whenever `ask_gemini` returns normally, the final answer is a
non-empty string. -/
theorem ask_gemini_answer_nonempty (gen : Nat → Str → Str)
    (apiKey : Option Str) (pdf_text question ans : Str)
    (h : (ask_gemini gen apiKey pdf_text question).result = .ok ans) :
    ans ≠ [] := by
  by_cases hk : apiKey.getD [] = []
  · rw [ask_gemini_no_key gen apiKey pdf_text question hk] at h
    exact absurd h (by simp)
  · rcases hrs : collectResponses gen question 0
        (chunk_text pdf_text MAX_CONTEXT_CHARS) with _ | ⟨r, _ | ⟨r2, rs⟩⟩
    · rw [ask_gemini_no_responses gen apiKey pdf_text question hk hrs] at h
      exact absurd h (by simp)
    · rw [ask_gemini_one_response gen apiKey pdf_text question r hk hrs] at h
      have hra : r = ans := by simpa using h
      subst hra
      refine collectResponses_ne_nil gen question 0
        (chunk_text pdf_text MAX_CONTEXT_CHARS) r ?_
      rw [hrs]
      exact List.mem_cons_self r []
    · rw [ask_gemini_many_responses gen apiKey pdf_text question
        r r2 rs hk hrs] at h
      have hval : (if strip (gen (chunk_text pdf_text MAX_CONTEXT_CHARS).length
            (merge_prompt (r :: r2 :: rs))) = []
          then joinSep (str "\n\n") (r :: r2 :: rs)
          else strip (gen (chunk_text pdf_text MAX_CONTEXT_CHARS).length
            (merge_prompt (r :: r2 :: rs)))) = ans := by simpa using h
      by_cases hf : strip (gen (chunk_text pdf_text MAX_CONTEXT_CHARS).length
          (merge_prompt (r :: r2 :: rs))) = []
      · rw [if_pos hf] at hval
        subst hval
        rw [joinSep_cons₂]
        intro h0
        rcases List.append_eq_nil.mp h0 with ⟨h1, _⟩
        rcases List.append_eq_nil.mp h1 with ⟨_, h3⟩
        exact (by decide : str "\n\n" ≠ []) h3
      · rw [if_neg hf] at hval
        subst hval
        exact hf

theorem ask_gemini_answer_nonempty_witness :
    (ask_gemini (fun _ _ => str "ok") (some (str "k")) (str "hi")
        (str "q")).result = .ok (str "ok") ∧ str "ok" ≠ [] :=
  ⟨rfl, ask_gemini_answer_nonempty (fun _ _ => str "ok") (some (str "k"))
    (str "hi") (str "q") (str "ok") rfl⟩

/-- C3: when the per-chunk calls collect more than one partial answer,
`ask_gemini` issues exactly one extra merge call; a non-empty trimmed merge
result is the final answer, otherwise the final answer is all partial
answers joined with a blank-line separator in their collection order; and
the merge prompt contains each partial answer under a `Partial answer i`
heading with `i` counted from 1. -/
theorem ask_gemini_merge_behavior (gen : Nat → Str → Str)
    (apiKey : Option Str) (pdf_text question : Str) (rs : List Str)
    (hk : apiKey.getD [] ≠ [])
    (h : collectResponses gen question 0
      (chunk_text pdf_text MAX_CONTEXT_CHARS) = rs)
    (h2 : 2 ≤ rs.length) :
    (strip (gen (chunk_text pdf_text MAX_CONTEXT_CHARS).length
        (merge_prompt rs)) ≠ [] →
      (ask_gemini gen apiKey pdf_text question).result
        = .ok (strip (gen (chunk_text pdf_text MAX_CONTEXT_CHARS).length
            (merge_prompt rs)))) ∧
    (strip (gen (chunk_text pdf_text MAX_CONTEXT_CHARS).length
        (merge_prompt rs)) = [] →
      (ask_gemini gen apiKey pdf_text question).result
        = .ok (joinSep (str "\n\n") rs)) ∧
    (ask_gemini gen apiKey pdf_text question).calls
      = (chunk_text pdf_text MAX_CONTEXT_CHARS).map
          (fun c => build_prompt c question) ++ [merge_prompt rs] ∧
    (∀ i (hi : i < rs.length), ∃ u v,
      merge_prompt rs
        = u ++ (str "Partial answer " ++ natStr (i + 1) ++ str ":\n"
            ++ rs.get ⟨i, hi⟩) ++ v) := by
  rcases rs with _ | ⟨r, _ | ⟨r2, rs'⟩⟩
  · exact absurd h2 (by decide)
  · rw [List.length_singleton] at h2
    omega
  · have key := ask_gemini_many_responses gen apiKey pdf_text question
      r r2 rs' hk h
    refine ⟨?_, ?_, ?_, ?_⟩
    · intro hf
      rw [key]
      show Except.ok _ = _
      rw [if_neg hf]
    · intro hf
      rw [key]
      show Except.ok _ = _
      rw [if_pos hf]
    · rw [key]
    · intro i hi
      have hmem := labelAnswers_mem (r :: r2 :: rs') 0 i hi
      have e : 0 + i + 1 = i + 1 := by omega
      rw [e] at hmem
      obtain ⟨u, v, huv⟩ :=
        joinSep_decomp (str "\n\n") (labelAnswers 0 (r :: r2 :: rs')) _ hmem
      exact ⟨mergeHeader ++ u, v, by simp [merge_prompt, huv]⟩

/-- Oracle used in the merge-path evaluation: the first call answers
`alpha`, every later call answers `beta`. -/
def witGen : Nat → Str → Str := fun i _ => if i = 0 then str "alpha" else str "beta"

/-- A 120001-character text splits into a full chunk and one character. -/
theorem chunk_text_replicate_split :
    chunk_text (List.replicate 120001 'a') MAX_CONTEXT_CHARS
      = [List.replicate 120000 'a', ['a']] := by
  have hne : List.replicate 120001 'a' ≠ [] := by
    intro h0
    have h2 := congrArg List.length h0
    rw [List.length_replicate, List.length_nil] at h2
    exact absurd h2 (by norm_num)
  have hmin : (120000 : Nat) ⊓ 120001 = 120000 := by norm_num
  have hsub : (120001 : Nat) - 120000 = 1 := by norm_num
  show chunk_text (List.replicate 120001 'a') 120000 = _
  rw [chunk_text_cons 120000 (by norm_num) _ hne, List.take_replicate,
    List.drop_replicate, hmin, hsub, List.replicate_one]
  rw [chunk_text_short 120000 ['a'] (by norm_num) (by decide) (by decide)]

/-- The responses collected on the two-chunk text under `witGen`. -/
theorem witGen_collect :
    collectResponses witGen (str "q") 0
      (chunk_text (List.replicate 120001 'a') MAX_CONTEXT_CHARS)
      = [str "alpha", str "beta"] := by
  rw [chunk_text_replicate_split]
  have e1 : strip (witGen 0 (build_prompt (List.replicate 120000 'a')
      (str "q"))) = str "alpha" := by
    show strip (str "alpha") = str "alpha"
    decide
  have e2 : strip (witGen 1 (build_prompt ['a'] (str "q"))) = str "beta" := by
    show strip (str "beta") = str "beta"
    decide
  simp only [collectResponses, e1, e2]
  rw [if_neg (by decide), if_neg (by decide)]

theorem ask_gemini_merge_behavior_witness :
    ((some (str "k") : Option Str).getD [] ≠ [] ∧
     collectResponses witGen (str "q") 0
       (chunk_text (List.replicate 120001 'a') MAX_CONTEXT_CHARS)
       = [str "alpha", str "beta"] ∧
     2 ≤ ([str "alpha", str "beta"] : List Str).length) ∧
    (ask_gemini witGen (some (str "k")) (List.replicate 120001 'a')
        (str "q")).calls
      = (chunk_text (List.replicate 120001 'a') MAX_CONTEXT_CHARS).map
          (fun c => build_prompt c (str "q"))
        ++ [merge_prompt [str "alpha", str "beta"]] :=
  ⟨⟨by decide, witGen_collect, by decide⟩,
   (ask_gemini_merge_behavior witGen (some (str "k"))
     (List.replicate 120001 'a') (str "q") [str "alpha", str "beta"]
     (by decide) witGen_collect (by decide)).2.2.1⟩

/-- `strip` gives the empty string exactly when every character is
whitespace. -/
theorem strip_eq_nil_iff (s : Str) : strip s = [] ↔ ∀ c ∈ s, isPySpace c := by
  unfold strip
  rw [List.reverse_eq_nil_iff, List.dropWhile_eq_nil_iff]
  constructor
  · intro h c hc
    have hc' : c ∈ s.takeWhile isPySpace ++ s.dropWhile isPySpace := by
      rw [List.takeWhile_append_dropWhile]
      exact hc
    rcases List.mem_append.mp hc' with h1 | h2
    · exact List.mem_takeWhile_imp h1
    · exact h c (List.mem_reverse.mpr h2)
  · intro h c hc
    have hc2 : c ∈ s.dropWhile isPySpace := List.mem_reverse.mp hc
    have hc3 : c ∈ s := by
      have hmem : c ∈ s.takeWhile isPySpace ++ s.dropWhile isPySpace :=
        List.mem_append.mpr (Or.inr hc2)
      rwa [List.takeWhile_append_dropWhile] at hmem
    exact h c hc3

/-- The page loop of `extract_pdf_text`: pages enumerated from the start
index, keeping `--- Page {idx} ---` plus the stripped text for each page
whose stripped text is non-empty; a page's `extract_text() or ""` value is
the `Option.getD` of its entry. -/
def pageTexts : Nat → List (Option Str) → List Str
  | _, [] => []
  | idx, p :: ps =>
    let text := strip (p.getD [])
    if text = [] then pageTexts (idx + 1) ps
    else (str "--- Page " ++ natStr idx ++ str " ---\n" ++ text)
      :: pageTexts (idx + 1) ps

/-- Unfolding equation of the page loop. -/
theorem pageTexts_cons (idx : Nat) (p : Option Str) (ps : List (Option Str)) :
    pageTexts idx (p :: ps)
      = if strip (p.getD []) = [] then pageTexts (idx + 1) ps
        else (str "--- Page " ++ natStr idx ++ str " ---\n"
            ++ strip (p.getD [])) :: pageTexts (idx + 1) ps := rfl

/-- The `combined` string of `extract_pdf_text`. -/
def combinedText (pages : List (Option Str)) : Str :=
  strip (joinSep (str "\n\n") (pageTexts 1 pages))

/-- `extract_pdf_text(pdf_path)` from `app.py`; path existence, the
regular-file test and the per-page `extract_text()` results are inputs. -/
def extract_pdf_text (pdf_path : Str) (pathExists isFile : Bool)
    (pages : List (Option Str)) : Except AppError Str :=
  if pathExists = false ∨ isFile = false then
    .error (.fileNotFound (str "PDF file not found: " ++ pdf_path))
  else if combinedText pages = [] then .error (.valueError emptyPdfMsg)
  else .ok (combinedText pages)

/-- The page loop yields nothing exactly when every page strips to empty. -/
theorem pageTexts_eq_nil_iff :
    ∀ (idx : Nat) (pages : List (Option Str)),
      pageTexts idx pages = [] ↔ ∀ p ∈ pages, strip (p.getD []) = []
  | _, [] => by simp [pageTexts]
  | idx, p :: ps => by
    rw [pageTexts_cons]
    by_cases he : strip (p.getD []) = []
    · rw [if_pos he, pageTexts_eq_nil_iff (idx + 1) ps]
      constructor
      · intro h q hq
        rcases List.mem_cons.mp hq with h1 | h1
        · rw [h1]; exact he
        · exact h q h1
      · intro h q hq
        exact h q (List.mem_cons_of_mem p hq)
    · rw [if_neg he]
      constructor
      · intro h
        exact absurd h (List.cons_ne_nil _ _)
      · intro h
        exact absurd (h p (List.mem_cons_self p ps)) he

/-- Every entry the page loop keeps contains the marker dash. -/
theorem pageTexts_mem_dash :
    ∀ (idx : Nat) (pages : List (Option Str)) (x : Str),
      x ∈ pageTexts idx pages → '-' ∈ x
  | _, [], x, hx => absurd hx (List.not_mem_nil x)
  | idx, p :: ps, x, hx => by
    rw [pageTexts_cons] at hx
    by_cases he : strip (p.getD []) = []
    · rw [if_pos he] at hx
      exact pageTexts_mem_dash (idx + 1) ps x hx
    · rw [if_neg he] at hx
      rcases List.mem_cons.mp hx with h1 | h1
      · subst h1
        refine List.mem_append.mpr (Or.inl ?_)
        refine List.mem_append.mpr (Or.inl ?_)
        refine List.mem_append.mpr (Or.inl ?_)
        decide
      · exact pageTexts_mem_dash (idx + 1) ps x h1

/-- A character of a member occurs in the joined string. -/
theorem joinSep_mem_char (sep : Str) (l : List Str) (x : Str) (c : Char)
    (hx : x ∈ l) (hc : c ∈ x) : c ∈ joinSep sep l := by
  obtain ⟨u, v, huv⟩ := joinSep_decomp sep l x hx
  rw [huv]
  exact List.mem_append.mpr (Or.inl (List.mem_append.mpr (Or.inr hc)))

/-- The combined text is empty exactly when no page yields non-whitespace
text. -/
theorem combinedText_eq_nil_iff (pages : List (Option Str)) :
    combinedText pages = [] ↔ ∀ p ∈ pages, strip (p.getD []) = [] := by
  unfold combinedText
  constructor
  · intro h q hq
    by_contra hne
    have hpt : pageTexts 1 pages ≠ [] := by
      intro h0
      exact hne ((pageTexts_eq_nil_iff 1 pages).mp h0 q hq)
    obtain ⟨x, hx⟩ := List.exists_mem_of_ne_nil _ hpt
    have hdash : '-' ∈ x := pageTexts_mem_dash 1 pages x hx
    have hmem : '-' ∈ joinSep (str "\n\n") (pageTexts 1 pages) :=
      joinSep_mem_char _ _ x '-' hx hdash
    have hsp := (strip_eq_nil_iff _).mp h '-' hmem
    exact absurd hsp (by decide)
  · intro h
    rw [(pageTexts_eq_nil_iff 1 pages).mpr h]
    rfl

/-- C5: `extract_pdf_text` fails with the not-found error whenever the path
does not exist or is not a regular file; with both checks passing, it fails
with the empty-content error whenever the trimmed join of the per-page
texts is empty — equivalently, when no page yields non-whitespace text —
and in every other case returns the joined text. -/
theorem extract_pdf_text_spec (pdf_path : Str) (pathExists isFile : Bool)
    (pages : List (Option Str)) :
    ((pathExists = false ∨ isFile = false) →
      extract_pdf_text pdf_path pathExists isFile pages
        = .error (.fileNotFound (str "PDF file not found: " ++ pdf_path))) ∧
    (pathExists = true → isFile = true → combinedText pages = [] →
      extract_pdf_text pdf_path pathExists isFile pages
        = .error (.valueError emptyPdfMsg)) ∧
    (pathExists = true → isFile = true → combinedText pages ≠ [] →
      extract_pdf_text pdf_path pathExists isFile pages
        = .ok (combinedText pages)) ∧
    (combinedText pages = [] ↔ ∀ p ∈ pages, strip (p.getD []) = []) := by
  refine ⟨?_, ?_, ?_, combinedText_eq_nil_iff pages⟩
  · intro h
    unfold extract_pdf_text
    rw [if_pos h]
  · intro hp hf hc
    unfold extract_pdf_text
    rw [if_neg (by simp [hp, hf]), if_pos hc]
  · intro hp hf hc
    unfold extract_pdf_text
    rw [if_neg (by simp [hp, hf]), if_neg hc]

theorem extract_pdf_text_spec_witness :
    ((false = false ∨ true = false) ∧
     extract_pdf_text (str "doc.pdf") false true [some (str "hi")]
       = .error (.fileNotFound (str "PDF file not found: "
           ++ str "doc.pdf"))) :=
  ⟨Or.inl rfl,
   (extract_pdf_text_spec (str "doc.pdf") false true [some (str "hi")]).1
     (Or.inl rfl)⟩

/-- Environment and file-system facts a run of `main` depends on. -/
structure World where
  pathExists : Bool
  isFile : Bool
  pages : List (Option Str)
  apiKey : Option Str
  gen : Nat → Str → Str
  writeOk : Bool

/-- Parsed command-line arguments of `main`. -/
structure Args where
  pdf : Str
  question : Str
  model : Str
  save_answer : Option Str
  env_file : Str

/-- Observable outcome of one process run of `main`: exit status, the
lines `main` itself prints to the error stream, the lines printed to the
output stream, and whether an exception escaped `main` (in which case the
interpreter prints a traceback and the process exits with status 1). -/
structure MainResult where
  exitCode : Nat
  errLines : List Str
  outLines : List Str
  uncaught : Bool

/-- The `try` block of `main`: extraction, then aggregation. -/
def runPipeline (w : World) (a : Args) : Except AppError Str :=
  match extract_pdf_text a.pdf w.pathExists w.isFile w.pages with
  | .error e => .error e
  | .ok pdf_text => (ask_gemini w.gen w.apiKey pdf_text a.question).result

/-- `main()` from `app.py`.  Only extraction and aggregation are inside
the `try/except`; the success prints and the optional answer-file write
happen after it, so a failing `write_text` (modelled by
`World.writeOk = false`) escapes `main` uncaught: the interpreter exits
with status 1 but `main` prints no `Error:` line. -/
def mainRun (w : World) (a : Args) : MainResult :=
  match runPipeline w a with
  | .error e =>
    { exitCode := 1, errLines := [str "Error: " ++ errMsg e],
      outLines := [], uncaught := false }
  | .ok answer =>
    let outs := [str "\n=== Question ===", a.question,
      str "\n=== Answer ===", answer]
    match a.save_answer with
    | none =>
      { exitCode := 0, errLines := [], outLines := outs, uncaught := false }
    | some p =>
      if w.writeOk then
        { exitCode := 0, errLines := [],
          outLines := outs ++ [str "\nSaved answer to: " ++ p],
          uncaught := false }
      else
        { exitCode := 1, errLines := [], outLines := outs, uncaught := true }

/-- A run whose pipeline succeeds but whose answer-file write fails. -/
def cWorld : World :=
  { pathExists := true, isFile := true, pages := [some (str "hello")],
    apiKey := some (str "k"), gen := fun _ _ => str "ans", writeOk := false }

/-- Arguments requesting the optional answer file. -/
def cArgs : Args :=
  { pdf := str "doc.pdf", question := str "q",
    model := str "gemini-1.5-flash", save_answer := some (str "out.txt"),
    env_file := str ".env" }

/-- C9 counterexample: with a readable one-page document, a configured
credential and a failing answer-file write, the raised failure escapes the
`try` block: `main` prints no `Error:` line to the error stream (the
uncaught exception produces a traceback), contradicting the claim that
every raised failure yields a single-line `Error: <message>` there. -/
theorem main_write_failure_counterexample :
    (mainRun cWorld cArgs).uncaught = true ∧
    (mainRun cWorld cArgs).errLines = [] ∧
    (mainRun cWorld cArgs).exitCode = 1 :=
  ⟨rfl, rfl, rfl⟩

/-- C9 (amended): every failure raised during extraction or aggregation is
caught and yields the single line `Error: <message>` on the error stream
with exit status 1; every success prints the question and the final answer
and returns status 0 (also when the optional answer file is written
successfully); but a failure while writing the optional answer file
escapes `main` uncaught — non-zero completion status without any
single-line `Error:` message. -/
theorem main_error_handling (w : World) (a : Args) :
    (∀ e, runPipeline w a = .error e →
      (mainRun w a).errLines = [str "Error: " ++ errMsg e] ∧
      (mainRun w a).exitCode = 1 ∧ (mainRun w a).uncaught = false) ∧
    (∀ ans, runPipeline w a = .ok ans →
      (a.save_answer = none ∨ w.writeOk = true) →
      (mainRun w a).exitCode = 0 ∧ (mainRun w a).errLines = [] ∧
      a.question ∈ (mainRun w a).outLines ∧ ans ∈ (mainRun w a).outLines ∧
      (mainRun w a).uncaught = false) ∧
    (∀ ans p, runPipeline w a = .ok ans → a.save_answer = some p →
      w.writeOk = false →
      (mainRun w a).exitCode = 1 ∧ (mainRun w a).errLines = [] ∧
      (mainRun w a).uncaught = true) := by
  refine ⟨?_, ?_, ?_⟩
  · intro e he
    simp only [mainRun, he]
    exact ⟨trivial, trivial, trivial⟩
  · intro ans hans hsw
    rcases hsv : a.save_answer with _ | p
    · simp only [mainRun, hans, hsv]
      refine ⟨trivial, trivial, by simp, by simp, trivial⟩
    · rcases hsw with h0 | hw
      · rw [hsv] at h0
        exact absurd h0 (by simp)
      · simp only [mainRun, hans, hsv, hw, if_true]
        refine ⟨trivial, trivial, by simp, by simp, trivial⟩
  · intro ans p hans hsv hw
    simp only [mainRun, hans, hsv, hw]
    rw [if_neg (by simp)]
    exact ⟨rfl, rfl, rfl⟩

/-- A run whose pipeline succeeds with no answer file requested. -/
def okWorld : World :=
  { pathExists := true, isFile := true, pages := [some (str "hello")],
    apiKey := some (str "k"), gen := fun _ _ => str "ans", writeOk := true }

/-- Arguments not requesting the optional answer file. -/
def okArgs : Args :=
  { pdf := str "doc.pdf", question := str "q",
    model := str "gemini-1.5-flash", save_answer := none,
    env_file := str ".env" }

theorem main_error_handling_witness :
    (runPipeline okWorld okArgs = .ok (str "ans") ∧
      (okArgs.save_answer = none ∨ okWorld.writeOk = true)) ∧
    ((mainRun okWorld okArgs).exitCode = 0 ∧
     (mainRun okWorld okArgs).errLines = [] ∧
     okArgs.question ∈ (mainRun okWorld okArgs).outLines ∧
     str "ans" ∈ (mainRun okWorld okArgs).outLines ∧
     (mainRun okWorld okArgs).uncaught = false) :=
  ⟨⟨rfl, Or.inl rfl⟩,
   (main_error_handling okWorld okArgs).2.1 (str "ans") rfl (Or.inl rfl)⟩
